import Mathlib

set_option autoImplicit false

/-!
Verification of the 64x64 matrix-portal animation loop
(`64x64-version-scales-32x32-images.py`).

The program repeatedly loads indexed-color bitmap frame strips, upscales
32-pixel-high ("legacy") strips to 64 pixels by 2x2 block replication,
plays frames at a fixed cadence for a bounded duration, and blanks the
display between clips, isolating per-clip failures.

Shallow embedding choices:
- A bitmap is its width, height, and a pixel map from coordinates to
  palette indices (row-major 2D grid of `displayio.Bitmap`).
- Imperative pixel stores (`bitmap[x, y] = v`) become functional updates,
  and each `for` loop becomes a `List.foldl` over `List.range`, in the
  same iteration order as the source.
- Wall-clock time is modelled in discrete units (the cadence and the
  duration are integral numbers of such units); `time.sleep(cadence)`
  advances the clock by exactly one cadence.
- `raise ValueError(...)` becomes `Except.error` with a message string.
-/

/-- A `displayio.Bitmap`: a width x height grid of palette indices.
`pixel x y` is the value stored at column `x`, row `y`. -/
structure Bitmap where
  width : Nat
  height : Nat
  pixel : Nat → Nat → Nat

/-- The store `bitmap[x, y] = v`. -/
def setPixel (b : Bitmap) (x y v : Nat) : Bitmap :=
  { b with pixel := fun x0 y0 => if x0 = x ∧ y0 = y then v else b.pixel x0 y0 }

/-- The four stores made for one source pixel: destination block corner
`(dx, dy)`, written in the source's order
`[dx,dy]`, `[dx+1,dy]`, `[dx,dy+1]`, `[dx+1,dy+1]`. -/
def writeBlock (b : Bitmap) (dx dy v : Nat) : Bitmap :=
  setPixel (setPixel (setPixel (setPixel b dx dy v) (dx + 1) dy v) dx (dy + 1) v)
    (dx + 1) (dy + 1) v

/-- Body of the innermost scaling loop of `play_animation` (lines 83-90):
read `image_bit[source_x_start + x, y]` and write its 2x2 block at
`(dest_x_start + x*2, y*2)`. -/
def scalePixelStep (src : Bitmap) (sx0 dx0 y : Nat) (acc : Bitmap) (x : Nat) : Bitmap :=
  writeBlock acc (dx0 + x * 2) (y * 2) (src.pixel (sx0 + x) y)

/-- One row of the scaling loop: `for x in range(32)`. -/
def scaleRow (src : Bitmap) (sx0 dx0 y : Nat) (acc : Bitmap) : Bitmap :=
  (List.range 32).foldl (scalePixelStep src sx0 dx0 y) acc

/-- Body of the `for y in range(32)` loop. -/
def scaleRowStep (src : Bitmap) (sx0 dx0 : Nat) (acc : Bitmap) (y : Nat) : Bitmap :=
  scaleRow src sx0 dx0 y acc

/-- One frame of the scaling loop of `play_animation`: both nested pixel
loops, with `source_x_start = sx0` and `dest_x_start = dx0`. -/
def scaleFrame (src : Bitmap) (sx0 dx0 : Nat) (acc : Bitmap) : Bitmap :=
  (List.range 32).foldl (scaleRowStep src sx0 dx0) acc

/-- Body of the `for frame in range(original_frames)` loop (lines 77-90):
`source_x_start = frame * 32`, `dest_x_start = frame * 64`. -/
def scaleFrameStep (src : Bitmap) (acc : Bitmap) (frame : Nat) : Bitmap :=
  scaleFrame src (frame * 32) (frame * 64) acc

/-- The whole scaling pass of `play_animation` (lines 73-90): allocate
`displayio.Bitmap(original_frames * 64, 64, len(image_pal))` (all pixels
start at 0) and scale every frame into it. `paletteLen` is the palette
size passed to the constructor; it does not affect stored pixels. -/
def scaleAllFrames (image_bit : Bitmap) (original_frames paletteLen : Nat) : Bitmap :=
  (List.range original_frames).foldl (scaleFrameStep image_bit)
    { width := original_frames * 64, height := 64, pixel := fun _ _ => 0 }

/-- Body of the inner `for x in range(32)` loop of `scale_bitmap_2x`. -/
def scaleBmpStepX (source_bitmap : Bitmap) (y : Nat) (acc : Bitmap) (x : Nat) : Bitmap :=
  writeBlock acc (x * 2) (y * 2) (source_bitmap.pixel x y)

/-- Body of the outer `for y in range(32)` loop of `scale_bitmap_2x`. -/
def scaleBmpStepY (source_bitmap : Bitmap) (acc : Bitmap) (y : Nat) : Bitmap :=
  (List.range 32).foldl (scaleBmpStepX source_bitmap y) acc

/-- The standalone helper `scale_bitmap_2x` (lines 34-49): scale a 32x32
bitmap to 64x64 by making each pixel into a 2x2 block. `paletteLen`
models `len(source_palette)`. -/
def scale_bitmap_2x (source_bitmap : Bitmap) (paletteLen : Nat) : Bitmap :=
  (List.range 32).foldl (scaleBmpStepY source_bitmap)
    { width := 64, height := 64, pixel := fun _ _ => 0 }

/-- Configuration constant `matrix_width = 64`. -/
def matrix_width : Nat := 64

/-- Configuration constant `matrix_height = 64`. -/
def matrix_height : Nat := 64

/-- Configuration constant `animation_speed = 0.1` (seconds between
frames), as an exact rational. -/
def animation_speed : ℚ := 1 / 10

/-- Configuration constant `play_time = 3.0` (seconds per animation). -/
def play_time : ℚ := 3

/-- Configuration constant `transition_frames = 5`. -/
def transition_frames : Nat := 5

/-- Configuration constant: the ordered clip list `bitmap_names`. -/
def bitmap_names : List String := ["octopus", "ghost", "parrot", "girl-earing-half", "mona-half"]

/-- Geometry validation and scaling of `play_animation` (lines 63-112):
classify the loaded bitmap by height, check the width multiple, and
produce `(final_bitmap, frame_width, frame_height, total_frames)`, or the
`ValueError` message the code raises. -/
def play_prepare (image_bit : Bitmap) (paletteLen : Nat) :
    Except String (Bitmap × Nat × Nat × Nat) :=
  if image_bit.height = 32 then
    if image_bit.width % 32 ≠ 0 then
      Except.error "width must be a multiple of 32 for 32px high bitmaps"
    else
      Except.ok (scaleAllFrames image_bit (image_bit.width / 32) paletteLen, 64, 64,
        image_bit.width / 32)
  else if image_bit.height = 64 then
    if image_bit.width % 64 ≠ 0 then
      Except.error "width must be a multiple of 64 for 64px high bitmaps"
    else
      Except.ok (image_bit, 64, 64, image_bit.width / 64)
  else
    Except.error "height must be 32 or 64 pixels"

/-- The errors a clip's playback can raise: `ValueError` from geometry
validation, a decode failure from `adafruit_imageload.load`, or any other
exception; all are subclasses of `Exception`, which the director catches. -/
inductive ClipError where
  | unsupportedGeometry (msg : String)
  | decodeFailure (msg : String)
  | other (msg : String)

/-- The `str(e)` text of a clip error. -/
def errorText : ClipError → String
  | ClipError.unsupportedGeometry m => m
  | ClipError.decodeFailure m => m
  | ClipError.other m => m

/-- The single line printed by the director's `except` handler. -/
def errorLogLine (bitmap_name : String) (e : ClipError) : String :=
  "Error with " ++ (bitmap_name ++ (": " ++ errorText e))

/-- Observable outcome of one iteration of the director's `for` body. -/
structure IterOutcome where
  logs : List String
  transitionRun : Bool
  proceedsToNext : Bool

/-- One iteration of the director's `for` body (lines 162-168), given the
outcome of `play_animation` for that clip: on success run the transition;
on any exception print one error line, run the transition, and continue. -/
def runClipIteration (bitmap_name : String) (result : Except ClipError Unit) : IterOutcome :=
  match result with
  | Except.ok _ => { logs := [], transitionRun := true, proceedsToNext := true }
  | Except.error e =>
      { logs := [errorLogLine bitmap_name e], transitionRun := true, proceedsToNext := true }

/-- Position in the clip list after `k` iterations of the forever loop
(lines 160-168), given each iteration's playback outcome: both the
success path and the `except ... continue` path advance to the next clip. -/
def directorIndex (numClips : Nat) (results : Nat → Except ClipError Unit) : Nat → Nat
  | 0 => 0
  | k + 1 =>
    match results k with
    | Except.ok _ => (directorIndex numClips results k + 1) % numClips
    | Except.error _ => (directorIndex numClips results k + 1) % numClips

/-- The frame-advance step `frame = (frame + 1) % total_frames` (line 137). -/
def nextFrameIndex (total_frames frame : Nat) : Nat := (frame + 1) % total_frames

/-- The frame index displayed on tick `k` of the playback loop:
`frame` starts at 0 and advances by `nextFrameIndex` after each display. -/
def frameOnTick (total_frames : Nat) : Nat → Nat
  | 0 => 0
  | k + 1 => nextFrameIndex total_frames (frameOnTick total_frames k)

/-- The playback loop's remaining tick count, from an elapsed time:
`while monotonic() - start_time < duration:` renders, then sleeps one
cadence. Time in discrete units; each tick advances elapsed by `cadence`. -/
def ticksFrom (duration cadence : Nat) (hC : 0 < cadence) (elapsed : Nat) : Nat :=
  if h : elapsed < duration then ticksFrom duration cadence hC (elapsed + cadence) + 1 else 0
termination_by duration - elapsed
decreasing_by omega

/-- Total number of ticks the playback loop performs, starting at
elapsed time 0. -/
def playTicks (duration cadence : Nat) (hC : 0 < cadence) : Nat :=
  ticksFrom duration cadence hC 0

/-- The `while len(group) > 0: group.pop()` drain loop: `pop()` removes
the last member until the group is empty. -/
def drainGroup {α : Type} : List α → List α
  | [] => []
  | x :: xs => drainGroup ((x :: xs).dropLast)
termination_by g => g.length
decreasing_by simp only [List.length_dropLast, List.length_cons]; omega

/-- `transition_to_black` (lines 142-150): drain the display group, then
sleep `animation_speed` once per iteration of
`for _ in range(transition_frames)`. Returns the final group and the
number of sleep ticks performed. -/
def transition_to_black {α : Type} (group : List α) : List α × Nat :=
  (drainGroup group, (List.range transition_frames).foldl (fun ticks _ => ticks + 1) 0)

/-- Total seconds slept by the transition's pause loop. -/
def transitionSleepSeconds : ℚ :=
  (List.range transition_frames).foldl (fun t _ => t + animation_speed) 0

/-- A concrete legacy-size (32x32, one frame) bitmap used as a test input. -/
def sampleLegacy : Bitmap := { width := 32, height := 32, pixel := fun x y => x + y }

/-- A concrete target-size (64x64, one frame) bitmap used as a test input. -/
def sampleTarget : Bitmap := { width := 64, height := 64, pixel := fun x y => x * y % 7 }

/-- A concrete height-16 bitmap (invalid geometry) used as a test input. -/
def sampleBad : Bitmap := { width := 20, height := 16, pixel := fun _ _ => 0 }

/-- A playback-outcome assignment where every clip succeeds. -/
def okResults : Nat → Except ClipError Unit := fun _ => Except.ok ()

/-- A concrete 3-frame legacy strip (96x32): the octopus scenario. -/
def sampleOctopus : Bitmap := { width := 96, height := 32, pixel := fun x y => x + y }

/-- A concrete one-frame legacy strip for the helper-equivalence claim. -/
def stripEx : Bitmap := { width := 32, height := 32, pixel := fun x y => x + y }

/-- A concrete 32x32 source bitmap that equals frame 0 of `stripEx`. -/
def srcEx : Bitmap := { width := 32, height := 32, pixel := fun x y => x + y }

/-! ## Helper lemmas: pixel characterization of the scaling folds -/

theorem pixel_congr (b : Bitmap) {x1 x2 y1 y2 : Nat} (hx : x1 = x2) (hy : y1 = y2) :
    b.pixel x1 y1 = b.pixel x2 y2 := by rw [hx, hy]

theorem setPixel_pixel (b : Bitmap) (x y v x0 y0 : Nat) :
    (setPixel b x y v).pixel x0 y0 = if x0 = x ∧ y0 = y then v else b.pixel x0 y0 := rfl

theorem writeBlock_pixel (b : Bitmap) (dx dy v X Y : Nat) :
    (writeBlock b dx dy v).pixel X Y =
      if (X = dx ∨ X = dx + 1) ∧ (Y = dy ∨ Y = dy + 1) then v else b.pixel X Y := by
  simp only [writeBlock, setPixel]
  split_ifs <;> first | rfl | omega

theorem foldlBitmap_width {α : Type} (f : Bitmap → α → Bitmap)
    (hf : ∀ b a, (f b a).width = b.width) :
    ∀ (l : List α) (b : Bitmap), (List.foldl f b l).width = b.width := by
  intro l
  induction l with
  | nil => intro b; rfl
  | cons a t ih => intro b; rw [List.foldl_cons, ih, hf]

theorem foldlBitmap_height {α : Type} (f : Bitmap → α → Bitmap)
    (hf : ∀ b a, (f b a).height = b.height) :
    ∀ (l : List α) (b : Bitmap), (List.foldl f b l).height = b.height := by
  intro l
  induction l with
  | nil => intro b; rfl
  | cons a t ih => intro b; rw [List.foldl_cons, ih, hf]

theorem scaleRowAux (src : Bitmap) (sx0 dx0 y : Nat) :
    ∀ (n : Nat) (b : Bitmap) (X Y : Nat),
      ((List.range n).foldl (scalePixelStep src sx0 dx0 y) b).pixel X Y =
        if dx0 ≤ X ∧ X < dx0 + n * 2 ∧ (Y = y * 2 ∨ Y = y * 2 + 1) then
          src.pixel (sx0 + (X - dx0) / 2) y
        else b.pixel X Y := by
  intro n
  induction n with
  | zero =>
    intro b X Y
    rw [List.range_zero, List.foldl_nil, if_neg]
    omega
  | succ n ih =>
    intro b X Y
    rw [List.range_succ, List.foldl_append, List.foldl_cons, List.foldl_nil]
    simp only [scalePixelStep]
    rw [writeBlock_pixel, ih]
    split_ifs <;> first | rfl | omega | exact pixel_congr src (by omega) rfl

theorem scaleFrameAux (src : Bitmap) (sx0 dx0 : Nat) :
    ∀ (m : Nat) (b : Bitmap) (X Y : Nat),
      ((List.range m).foldl (scaleRowStep src sx0 dx0) b).pixel X Y =
        if dx0 ≤ X ∧ X < dx0 + 64 ∧ Y < m * 2 then
          src.pixel (sx0 + (X - dx0) / 2) (Y / 2)
        else b.pixel X Y := by
  intro m
  induction m with
  | zero =>
    intro b X Y
    rw [List.range_zero, List.foldl_nil, if_neg]
    omega
  | succ m ih =>
    intro b X Y
    rw [List.range_succ, List.foldl_append, List.foldl_cons, List.foldl_nil]
    simp only [scaleRowStep, scaleRow]
    rw [scaleRowAux, ih]
    split_ifs <;> first | rfl | omega | exact pixel_congr src (by omega) (by omega)

theorem scaleStripAux (src : Bitmap) :
    ∀ (k : Nat) (b : Bitmap) (X Y : Nat),
      ((List.range k).foldl (scaleFrameStep src) b).pixel X Y =
        if X < k * 64 ∧ Y < 64 then
          src.pixel (X / 64 * 32 + X % 64 / 2) (Y / 2)
        else b.pixel X Y := by
  intro k
  induction k with
  | zero =>
    intro b X Y
    rw [List.range_zero, List.foldl_nil, if_neg]
    omega
  | succ k ih =>
    intro b X Y
    rw [List.range_succ, List.foldl_append, List.foldl_cons, List.foldl_nil]
    simp only [scaleFrameStep, scaleFrame]
    rw [scaleFrameAux, ih]
    split_ifs <;> first | rfl | omega | exact pixel_congr src (by omega) rfl

/-- Closed form of the inline scaling pass: every destination pixel of the
scaled strip is the 2x2-replicated source pixel of its frame, and nothing
else was written (pixels outside the strip keep the allocation value 0). -/
theorem scaleAllFrames_pixel (src : Bitmap) (F p X Y : Nat) :
    (scaleAllFrames src F p).pixel X Y =
      if X < F * 64 ∧ Y < 64 then src.pixel (X / 64 * 32 + X % 64 / 2) (Y / 2) else 0 := by
  unfold scaleAllFrames
  rw [scaleStripAux]

theorem scaleRow_width (src : Bitmap) (sx0 dx0 y : Nat) (b : Bitmap) :
    (scaleRow src sx0 dx0 y b).width = b.width :=
  foldlBitmap_width (scalePixelStep src sx0 dx0 y) (fun _ _ => rfl) (List.range 32) b

theorem scaleRow_height (src : Bitmap) (sx0 dx0 y : Nat) (b : Bitmap) :
    (scaleRow src sx0 dx0 y b).height = b.height :=
  foldlBitmap_height (scalePixelStep src sx0 dx0 y) (fun _ _ => rfl) (List.range 32) b

theorem scaleFrame_width (src : Bitmap) (sx0 dx0 : Nat) (b : Bitmap) :
    (scaleFrame src sx0 dx0 b).width = b.width :=
  foldlBitmap_width (scaleRowStep src sx0 dx0)
    (fun b2 y => scaleRow_width src sx0 dx0 y b2) (List.range 32) b

theorem scaleFrame_height (src : Bitmap) (sx0 dx0 : Nat) (b : Bitmap) :
    (scaleFrame src sx0 dx0 b).height = b.height :=
  foldlBitmap_height (scaleRowStep src sx0 dx0)
    (fun b2 y => scaleRow_height src sx0 dx0 y b2) (List.range 32) b

theorem scaleAllFrames_width (src : Bitmap) (F p : Nat) :
    (scaleAllFrames src F p).width = F * 64 :=
  foldlBitmap_width (scaleFrameStep src)
    (fun b f => scaleFrame_width src (f * 32) (f * 64) b) (List.range F)
    { width := F * 64, height := 64, pixel := fun _ _ => 0 }

theorem scaleAllFrames_height (src : Bitmap) (F p : Nat) :
    (scaleAllFrames src F p).height = 64 :=
  foldlBitmap_height (scaleFrameStep src)
    (fun b f => scaleFrame_height src (f * 32) (f * 64) b) (List.range F)
    { width := F * 64, height := 64, pixel := fun _ _ => 0 }

/-- The loop bodies of `scale_bitmap_2x` coincide with those of the inline
scaling loop at frame offsets 0. -/
theorem scaleBmpStepY_eq (src : Bitmap) : scaleBmpStepY src = scaleRowStep src 0 0 := by
  funext acc y
  unfold scaleBmpStepY scaleRowStep scaleRow
  congr 1
  funext a x
  unfold scaleBmpStepX scalePixelStep
  simp

/-- The standalone helper is the same fold as one frame of the inline
loop at offsets 0. -/
theorem scale_bitmap_2x_eq (src : Bitmap) (p : Nat) :
    scale_bitmap_2x src p =
      scaleFrame src 0 0 { width := 64, height := 64, pixel := fun _ _ => 0 } := by
  unfold scale_bitmap_2x scaleFrame
  rw [scaleBmpStepY_eq]

/-- Closed form of `scale_bitmap_2x`. -/
theorem scale_bitmap_2x_pixel (src : Bitmap) (p X Y : Nat) :
    (scale_bitmap_2x src p).pixel X Y =
      if X < 64 ∧ Y < 64 then src.pixel (X / 2) (Y / 2) else 0 := by
  rw [scale_bitmap_2x_eq]
  unfold scaleFrame
  rw [scaleFrameAux]
  split_ifs <;> first | rfl | omega | exact pixel_congr src (by omega) rfl

/-! ## Helper lemmas: validation, playback state, timing, transition -/

theorem play_prepare_legacy_eq (img : Bitmap) (p : Nat)
    (h32 : img.height = 32) (hw : img.width % 32 = 0) :
    play_prepare img p =
      Except.ok (scaleAllFrames img (img.width / 32) p, 64, 64, img.width / 32) := by
  unfold play_prepare
  rw [h32]
  simp [hw]

theorem play_prepare_target_eq (img : Bitmap) (p : Nat)
    (h64 : img.height = 64) (hw : img.width % 64 = 0) :
    play_prepare img p = Except.ok (img, 64, 64, img.width / 64) := by
  unfold play_prepare
  rw [h64]
  simp [hw]

theorem frameOnTick_mod (F : Nat) (hF : 1 ≤ F) : ∀ k, frameOnTick F k = k % F := by
  intro k
  induction k with
  | zero => exact (Nat.zero_mod F).symm
  | succ k ih =>
    simp only [frameOnTick, nextFrameIndex, ih]
    exact Nat.mod_add_mod k F 1

/-- The loop guard is re-checked after each tick, so the final elapsed
time is at least the duration. -/
theorem ticksFrom_reaches (duration cadence : Nat) (hC : 0 < cadence) (elapsed : Nat) :
    duration ≤ elapsed + cadence * ticksFrom duration cadence hC elapsed := by
  unfold ticksFrom
  split
  next h =>
    have ih := ticksFrom_reaches duration cadence hC (elapsed + cadence)
    rw [Nat.mul_succ]
    omega
  next h => omega
termination_by duration - elapsed
decreasing_by omega

/-- Each tick starts only while elapsed time is still below the duration,
so the final elapsed time overshoots by less than one cadence. -/
theorem ticksFrom_bounded (duration cadence : Nat) (hC : 0 < cadence) (elapsed : Nat)
    (hE : elapsed < duration + cadence) :
    elapsed + cadence * ticksFrom duration cadence hC elapsed < duration + cadence := by
  unfold ticksFrom
  split
  next h =>
    have ih := ticksFrom_bounded duration cadence hC (elapsed + cadence) (by omega)
    rw [Nat.mul_succ]
    omega
  next h => omega
termination_by duration - elapsed
decreasing_by omega

theorem drainGroup_aux {α : Type} : ∀ (n : Nat) (g : List α), g.length ≤ n → drainGroup g = [] := by
  intro n
  induction n with
  | zero =>
    intro g hg
    cases g with
    | nil => simp [drainGroup]
    | cons x xs => simp at hg
  | succ n ih =>
    intro g hg
    cases g with
    | nil => simp [drainGroup]
    | cons x xs =>
      have h1 : drainGroup (x :: xs) = drainGroup ((x :: xs).dropLast) := by
        simp [drainGroup]
      rw [h1]
      refine ih _ ?_
      simp only [List.length_dropLast, List.length_cons] at *
      omega

theorem drainGroup_eq_nil {α : Type} (g : List α) : drainGroup g = [] :=
  drainGroup_aux g.length g (Nat.le_refl _)

theorem transitionSleepSeconds_eq :
    transitionSleepSeconds = (transition_frames : ℚ) * animation_speed := by
  unfold transitionSleepSeconds animation_speed transition_frames
  norm_num [List.range_succ]

theorem play_prepare_err32 (img : Bitmap) (p : Nat)
    (h32 : img.height = 32) (hw : img.width % 32 ≠ 0) :
    play_prepare img p =
      Except.error "width must be a multiple of 32 for 32px high bitmaps" := by
  unfold play_prepare
  rw [h32]
  simp [hw]

theorem play_prepare_err64 (img : Bitmap) (p : Nat)
    (h64 : img.height = 64) (hw : img.width % 64 ≠ 0) :
    play_prepare img p =
      Except.error "width must be a multiple of 64 for 64px high bitmaps" := by
  unfold play_prepare
  rw [h64]
  simp [hw]

theorem play_prepare_errH (img : Bitmap) (p : Nat)
    (hA : img.height ≠ 32) (hB : img.height ≠ 64) :
    play_prepare img p = Except.error "height must be 32 or 64 pixels" := by
  unfold play_prepare
  simp [hA, hB]

/-! ## Claims -/

/-- C1: For every legacy (32-pixel-high) frame strip with frame count
F = width / 32 that passes validation, the scaling step produces a bitmap
of width F x 64 and height 64 in which, for every frame f and every source
pixel (x, y) of frame f, all four destination pixels (f*64+2x, 2y),
(f*64+2x+1, 2y), (f*64+2x, 2y+1), (f*64+2x+1, 2y+1) equal the source
pixel value at (f*32+x, y); moreover every in-range destination pixel is
exactly such a block replica, so the pass makes no other destination
writes. -/
theorem c1_legacy_scaling_blocks (img : Bitmap) (p : Nat)
    (h32 : img.height = 32) (hw : img.width % 32 = 0) :
    ∃ b, play_prepare img p = Except.ok (b, 64, 64, img.width / 32) ∧
      b.width = img.width / 32 * 64 ∧ b.height = 64 ∧
      (∀ f < img.width / 32, ∀ x < 32, ∀ y < 32,
        b.pixel (f * 64 + 2 * x) (2 * y) = img.pixel (f * 32 + x) y ∧
        b.pixel (f * 64 + 2 * x + 1) (2 * y) = img.pixel (f * 32 + x) y ∧
        b.pixel (f * 64 + 2 * x) (2 * y + 1) = img.pixel (f * 32 + x) y ∧
        b.pixel (f * 64 + 2 * x + 1) (2 * y + 1) = img.pixel (f * 32 + x) y) ∧
      (∀ X < img.width / 32 * 64, ∀ Y < 64,
        b.pixel X Y = img.pixel (X / 64 * 32 + X % 64 / 2) (Y / 2)) := by
  have hp : ∀ X Y, X < img.width / 32 * 64 → Y < 64 →
      (scaleAllFrames img (img.width / 32) p).pixel X Y =
        img.pixel (X / 64 * 32 + X % 64 / 2) (Y / 2) := by
    intro X Y hX hY
    rw [scaleAllFrames_pixel, if_pos ⟨hX, hY⟩]
  refine ⟨scaleAllFrames img (img.width / 32) p, play_prepare_legacy_eq img p h32 hw,
    scaleAllFrames_width img (img.width / 32) p, scaleAllFrames_height img (img.width / 32) p,
    ?_, fun X hX Y hY => hp X Y hX hY⟩
  intro f hf x hx y hy
  refine ⟨?_, ?_, ?_, ?_⟩
  · rw [hp _ _ (by omega) (by omega)]
    exact pixel_congr img (by omega) (by omega)
  · rw [hp _ _ (by omega) (by omega)]
    exact pixel_congr img (by omega) (by omega)
  · rw [hp _ _ (by omega) (by omega)]
    exact pixel_congr img (by omega) (by omega)
  · rw [hp _ _ (by omega) (by omega)]
    exact pixel_congr img (by omega) (by omega)

theorem c1_witness : (play_prepare sampleLegacy 4).isOk = true := by
  obtain ⟨b, hb, _⟩ := c1_legacy_scaling_blocks sampleLegacy 4 rfl rfl
  rw [hb]
  rfl

/-- C2: If any error is raised during a clip's playback, the director
catches it, emits exactly one log line naming that clip, runs the
transition anyway, and proceeds to the next clip; and the forever loop
visits the clip list in fixed order, its position after k iterations
being k mod the clip count regardless of which playbacks failed. -/
theorem c2_per_clip_error_isolation :
    (∀ (bitmap_name : String) (e : ClipError),
      (runClipIteration bitmap_name (Except.error e)).logs = [errorLogLine bitmap_name e] ∧
      (runClipIteration bitmap_name (Except.error e)).logs.length = 1 ∧
      (∃ pre post, errorLogLine bitmap_name e = pre ++ (bitmap_name ++ post)) ∧
      (runClipIteration bitmap_name (Except.error e)).transitionRun = true ∧
      (runClipIteration bitmap_name (Except.error e)).proceedsToNext = true) ∧
    (∀ (numClips : Nat) (results : Nat → Except ClipError Unit) (k : Nat), 0 < numClips →
      directorIndex numClips results k = k % numClips) := by
  constructor
  · intro name e
    exact ⟨rfl, rfl, ⟨"Error with ", ": " ++ errorText e, rfl⟩, rfl, rfl⟩
  · intro numClips results k hn
    induction k with
    | zero => exact (Nat.zero_mod numClips).symm
    | succ k ih =>
      cases h : results k with
      | ok u =>
        simp only [directorIndex, h]
        rw [ih]
        exact Nat.mod_add_mod k numClips 1
      | error e =>
        simp only [directorIndex, h]
        rw [ih]
        exact Nat.mod_add_mod k numClips 1

theorem c2_witness : directorIndex 5 okResults 7 = 7 % 5 :=
  c2_per_clip_error_isolation.2 5 okResults 7 (by decide)

/-- C3: Validation raises the geometry error exactly when the height is
neither 32 nor 64, or the height is 32 and the width is not a multiple of
32, or the height is 64 and the width is not a multiple of 64; a height-16
bitmap always raises it, and the director proceeds to the next clip. -/
theorem c3_geometry_errors (img : Bitmap) (p : Nat) :
    ((∃ msg, play_prepare img p = Except.error msg) ↔
      (img.height ≠ 32 ∧ img.height ≠ 64) ∨
      (img.height = 32 ∧ img.width % 32 ≠ 0) ∨
      (img.height = 64 ∧ img.width % 64 ≠ 0)) ∧
    (img.height = 16 → ∃ msg, play_prepare img p = Except.error msg) ∧
    (∀ (bitmap_name msg : String),
      (runClipIteration bitmap_name
        (Except.error (ClipError.unsupportedGeometry msg))).proceedsToNext = true) := by
  refine ⟨?_, ?_, fun _ _ => rfl⟩
  · by_cases h1 : img.height = 32
    · by_cases h2 : img.width % 32 = 0
      · rw [play_prepare_legacy_eq img p h1 h2]
        constructor
        · rintro ⟨m, hm⟩
          simp at hm
        · rintro (⟨ha, hb⟩ | ⟨ha, hb⟩ | ⟨ha, hb⟩) <;> omega
      · rw [play_prepare_err32 img p h1 h2]
        exact ⟨fun _ => Or.inr (Or.inl ⟨h1, h2⟩), fun _ => ⟨_, rfl⟩⟩
    · by_cases h3 : img.height = 64
      · by_cases h4 : img.width % 64 = 0
        · rw [play_prepare_target_eq img p h3 h4]
          constructor
          · rintro ⟨m, hm⟩
            simp at hm
          · rintro (⟨ha, hb⟩ | ⟨ha, hb⟩ | ⟨ha, hb⟩) <;> omega
        · rw [play_prepare_err64 img p h3 h4]
          exact ⟨fun _ => Or.inr (Or.inr ⟨h3, h4⟩), fun _ => ⟨_, rfl⟩⟩
      · rw [play_prepare_errH img p h1 h3]
        exact ⟨fun _ => Or.inl ⟨h1, h3⟩, fun _ => ⟨_, rfl⟩⟩
  · intro h16
    rw [play_prepare_errH img p (by omega) (by omega)]
    exact ⟨_, rfl⟩

theorem c3_witness : ∃ msg, play_prepare sampleBad 4 = Except.error msg :=
  (c3_geometry_errors sampleBad 4).2.1 rfl

/-- C4: For every target-size (64-pixel-high) strip that passes
validation, the scaler is the identity: the installed bitmap is the
loaded bitmap itself, unchanged; consequently re-running preparation on
the prepared bitmap is a no-op. -/
theorem c4_target_identity (img : Bitmap) (p : Nat)
    (h64 : img.height = 64) (hw : img.width % 64 = 0) :
    play_prepare img p = Except.ok (img, 64, 64, img.width / 64) ∧
    (∀ b fw fh F, play_prepare img p = Except.ok (b, fw, fh, F) →
      play_prepare b p = play_prepare img p) := by
  have h := play_prepare_target_eq img p h64 hw
  refine ⟨h, ?_⟩
  intro b fw fh F hok
  rw [h] at hok
  simp only [Except.ok.injEq, Prod.mk.injEq] at hok
  obtain ⟨hb, _, _, _⟩ := hok
  rw [← hb]

theorem c4_witness : (play_prepare sampleTarget 4).isOk = true := by
  rw [(c4_target_identity sampleTarget 4 rfl rfl).1]
  rfl

/-- C5: During playback of a clip with total_frames = F >= 1, the frame
index shown on tick k is k mod F for every k, and the frame index is
always in [0, F): the sequence 0, 1, ..., F-1, 0, 1, ... wraps at the
last frame rather than stopping. -/
theorem c5_frame_index_cycles (F : Nat) (hF : 1 ≤ F) (k : Nat) :
    frameOnTick F k = k % F ∧ frameOnTick F k < F := by
  have h := frameOnTick_mod F hF k
  exact ⟨h, by rw [h]; exact Nat.mod_lt k hF⟩

theorem c5_witness : frameOnTick 3 7 = 7 % 3 ∧ frameOnTick 3 7 < 3 :=
  c5_frame_index_cycles 3 (by decide) 7

/-- C6: For duration D > 0 and cadence C > 0 the playback loop terminates
(the tick count is a well-defined natural number): it performs exactly
the ceiling of D / C ticks, exits once elapsed time reaches D, and the
total elapsed time C * ticks never exceeds D by a full cadence. -/
theorem c6_playback_terminates (duration cadence : Nat) (hD : 0 < duration) (hC : 0 < cadence) :
    duration ≤ cadence * playTicks duration cadence hC ∧
    cadence * playTicks duration cadence hC < duration + cadence ∧
    playTicks duration cadence hC = (duration + cadence - 1) / cadence := by
  have h1 : duration ≤ cadence * playTicks duration cadence hC := by
    have := ticksFrom_reaches duration cadence hC 0
    unfold playTicks
    omega
  have h2 : cadence * playTicks duration cadence hC < duration + cadence := by
    have := ticksFrom_bounded duration cadence hC 0 (by omega)
    unfold playTicks
    omega
  have h3 : playTicks duration cadence hC ≤ (duration + cadence - 1) / cadence := by
    rw [Nat.le_div_iff_mul_le hC, Nat.mul_comm]
    omega
  have h4 : (duration + cadence - 1) / cadence ≤ playTicks duration cadence hC := by
    have h5 : duration + cadence - 1 < (playTicks duration cadence hC + 1) * cadence := by
      rw [Nat.succ_mul, Nat.mul_comm]
      omega
    exact Nat.lt_succ_iff.mp ((Nat.div_lt_iff_lt_mul hC).mpr h5)
  exact ⟨h1, h2, Nat.le_antisymm h3 h4⟩

theorem c6_witness :
    30 ≤ 1 * playTicks 30 1 Nat.one_pos ∧
    1 * playTicks 30 1 Nat.one_pos < 30 + 1 ∧
    playTicks 30 1 Nat.one_pos = (30 + 1 - 1) / 1 :=
  c6_playback_terminates 30 1 (by decide) Nat.one_pos

/-- C7: For every bitmap that passes validation the reported frame count
is width / 32 when the height is 32 and width / 64 when the height is 64;
a height-32, width-96 bitmap yields total_frames = 3 and a 192 x 64
scaled strip. -/
theorem c7_frame_count (img : Bitmap) (p : Nat) :
    (img.height = 32 → img.width % 32 = 0 →
      ∃ b, play_prepare img p = Except.ok (b, 64, 64, img.width / 32) ∧
        b.width = img.width / 32 * 64 ∧ b.height = 64) ∧
    (img.height = 64 → img.width % 64 = 0 →
      play_prepare img p = Except.ok (img, 64, 64, img.width / 64)) ∧
    (img.height = 32 → img.width = 96 →
      ∃ b, play_prepare img p = Except.ok (b, 64, 64, 3) ∧ b.width = 192 ∧ b.height = 64) := by
  refine ⟨?_, ?_, ?_⟩
  · intro h32 hw
    exact ⟨scaleAllFrames img (img.width / 32) p, play_prepare_legacy_eq img p h32 hw,
      scaleAllFrames_width img (img.width / 32) p, scaleAllFrames_height img (img.width / 32) p⟩
  · intro h64 hw
    exact play_prepare_target_eq img p h64 hw
  · intro h32 hw96
    have hw : img.width % 32 = 0 := by omega
    have h3 : img.width / 32 = 3 := by omega
    refine ⟨scaleAllFrames img (img.width / 32) p, ?_, ?_,
      scaleAllFrames_height img (img.width / 32) p⟩
    · rw [play_prepare_legacy_eq img p h32 hw, h3]
    · rw [scaleAllFrames_width img (img.width / 32) p, h3]

theorem c7_witness :
    ∃ b, play_prepare sampleOctopus 4 = Except.ok (b, 64, 64, 3) ∧
      b.width = 192 ∧ b.height = 64 :=
  (c7_frame_count sampleOctopus 4).2.2 rfl rfl

/-- C8: The transition step first empties the rendering surface (the
display group ends with zero members) and then sleeps exactly
transition_frames cadence ticks, transition_frames * animation_speed
seconds in total, with no pixel computation; and the director runs it
identically after a successful clip and after a failed one. -/
theorem c8_transition_blanks {α : Type} (group : List α) :
    (transition_to_black group).1 = [] ∧
    (transition_to_black group).1.length = 0 ∧
    (transition_to_black group).2 = transition_frames ∧
    transitionSleepSeconds = (transition_frames : ℚ) * animation_speed ∧
    (∀ (bitmap_name : String) (result : Except ClipError Unit),
      (runClipIteration bitmap_name result).transitionRun = true) := by
  have h1 : (transition_to_black group).1 = [] := drainGroup_eq_nil group
  refine ⟨h1, by rw [h1]; rfl, rfl, transitionSleepSeconds_eq, ?_⟩
  intro name result
  cases result <;> rfl

/-- C9: Every frame strip produced by a validated bitmap (widths are
positive by the pixel-buffer invariant) has total_frames >= 1, so the
frame-advance reduction modulo total_frames never divides by zero and
the frame index stays below total_frames. -/
theorem c9_total_frames_positive (img : Bitmap) (p : Nat) (hpos : 0 < img.width)
    (b : Bitmap) (fw fh F : Nat)
    (hok : play_prepare img p = Except.ok (b, fw, fh, F)) :
    1 ≤ F ∧ ∀ k, frameOnTick F k < F := by
  have hF : 1 ≤ F := by
    unfold play_prepare at hok
    split_ifs at hok with h1 h2 h3 h4
    · obtain ⟨h5, h6, h7, hF2⟩ := hok
      omega
    · obtain ⟨h5, h6, h7, hF2⟩ := hok
      omega
  refine ⟨hF, fun k => ?_⟩
  rw [frameOnTick_mod F hF k]
  exact Nat.mod_lt k hF

theorem c9_witness : 1 ≤ sampleLegacy.width / 32 :=
  (c9_total_frames_positive sampleLegacy 4 (by decide) _ 64 64 _
    (play_prepare_legacy_eq sampleLegacy 4 rfl rfl)).1

/-- C10: The standalone helper scale_bitmap_2x and the inline scaling
loop of play_animation compute the same function: for every frame f of a
strip whose 32x32 sub-bitmap at frame f equals a given source bitmap, the
64x64 tile the inline loop writes for frame f is pixel-for-pixel the
bitmap scale_bitmap_2x returns for that source. -/
theorem c10_scaler_equivalence (strip : Bitmap) (F p f : Nat) (hf : f < F)
    (src : Bitmap)
    (hsub : ∀ x < 32, ∀ y < 32, strip.pixel (f * 32 + x) y = src.pixel x y) :
    ∀ X < 64, ∀ Y < 64,
      (scaleAllFrames strip F p).pixel (f * 64 + X) Y = (scale_bitmap_2x src p).pixel X Y := by
  intro X hX Y hY
  have h1 : (scaleAllFrames strip F p).pixel (f * 64 + X) Y =
      strip.pixel ((f * 64 + X) / 64 * 32 + (f * 64 + X) % 64 / 2) (Y / 2) := by
    rw [scaleAllFrames_pixel, if_pos ⟨by omega, hY⟩]
  have h2 : (scale_bitmap_2x src p).pixel X Y = src.pixel (X / 2) (Y / 2) := by
    rw [scale_bitmap_2x_pixel, if_pos ⟨hX, hY⟩]
  rw [h1, h2,
    pixel_congr strip (show (f * 64 + X) / 64 * 32 + (f * 64 + X) % 64 / 2 = f * 32 + X / 2
      by omega) rfl]
  exact hsub (X / 2) (by omega) (Y / 2) (by omega)

theorem c10_witness :
    (scaleAllFrames stripEx 1 4).pixel (0 * 64 + 5) 6 = (scale_bitmap_2x srcEx 4).pixel 5 6 :=
  c10_scaler_equivalence stripEx 1 4 0 (by decide) srcEx
    (fun x hx y hy => by show 0 * 32 + x + y = x + y; omega) 5 (by decide) 6 (by decide)

theorem c8_witness : (transition_to_black ([1, 2, 3] : List Nat)).1 = [] :=
  (c8_transition_blanks ([1, 2, 3] : List Nat)).1
